import Mathlib

/-!
# Verification of the `circular` reactive templating engine

A shallow embedding, in Lean 4, of the template compilation and reactive
binding engine of the `circular` repository:

* `src/circular/template/tpl.py` — `PrefixLookupDict` (canonical-key registry),
  `TplNode` (plugin discovery, construction and cloning) and `Template`
  (root object with the coalesced update scheduler);
* `src/circular/template/tags/template.py` — `TemplatePlugin` (named template
  definitions) and `Include` (template instantiation at a binding site).

Python strings are modelled as `List Char`; the ASCII case mapping
`Char.toUpper` models Python's `str.upper` (attribute and plugin names in the
engine are ASCII; `str.replace('-','')` on a one-character pattern deletes all
occurrences, i.e. a filter).  Mutation of a DOM element (attribute removal,
the `_plugins` cache) is modelled by explicit state passing; Python
exceptions by `Except`/`Option`; Python object identity by explicit `oid`
fields and the monotonic `_HASH_SEQ` counter threaded as `seq`.  Python's
`list.sort(key=...)` is a stable ascending sort, which determines it uniquely
as a function; it is modelled by `List.insertionSort` (stable, ascending).
-/

namespace Circular

/-! ## Python string primitives -/

/-- `s.upper()` character by character (ASCII, as in the engine's names). -/
def pyUpper (s : List Char) : List Char := s.map Char.toUpper

/-- `s.replace(c, '')`: delete every occurrence of the character `c`. -/
def pyRemoveChar (c : Char) (s : List Char) : List Char := s.filter (fun d => d ≠ c)

/-- `key.upper().replace('-','').replace('_','')` — the normalisation applied
both by `PrefixLookupDict._canonical` (to keys) and by
`PrefixLookupDict.set_prefix` (to the stored prefix). -/
def pyNorm (s : List Char) : List Char := pyRemoveChar '_' (pyRemoveChar '-' (pyUpper s))

/-- `PrefixLookupDict._canonical(key)` (tpl.py lines 19–24): normalise, then
strip the stored prefix when the normalised key starts with it. -/
def canonicalKey (pfx key : List Char) : List Char :=
  let k := pyNorm key
  if pfx.isPrefixOf k then k.drop pfx.length else k

/-- `PrefixLookupDict.set_prefix(prefix)` (tpl.py lines 32–33) stores
`prefix.upper().replace('-','').replace('_','')`. -/
def setPrefix (p : List Char) : List Char := pyNorm p

/-- Two attribute spellings of the same logical name: they agree letter by
letter up to ASCII case, with hyphen/underscore punctuation freely inserted
on either side. -/
inductive SpellingVariant : List Char → List Char → Prop where
  | nil : SpellingVariant [] []
  | caseChar (c d : Char) (s t : List Char) (h : Char.toUpper c = Char.toUpper d)
      (hv : SpellingVariant s t) : SpellingVariant (c :: s) (d :: t)
  | sepLeft (c : Char) (s t : List Char) (h : c = '-' ∨ c = '_')
      (hv : SpellingVariant s t) : SpellingVariant (c :: s) t
  | sepRight (c : Char) (s t : List Char) (h : c = '-' ∨ c = '_')
      (hv : SpellingVariant s t) : SpellingVariant s (c :: t)

/-! ## Association lists (the backing store of a Python `dict`) -/

def assocFind {α : Type} (k : List Char) : List (List Char × α) → Option α
  | [] => none
  | e :: rest => if e.1 = k then some e.2 else assocFind k rest

def assocSet {α : Type} (k : List Char) (v : α) : List (List Char × α) → List (List Char × α)
  | [] => [(k, v)]
  | e :: rest => if e.1 = k then (k, v) :: rest else e :: assocSet k v rest

def assocErase {α : Type} (k : List Char) : List (List Char × α) → List (List Char × α)
  | [] => []
  | e :: rest => if e.1 = k then rest else e :: assocErase k rest

/-! ## `PrefixLookupDict` (tpl.py lines 8–49)

A `dict` whose keys are canonicalised on every read and write, plus the
stored (already normalised) prefix. -/

structure PrefixLookupDict (α : Type) where
  pfx : List Char
  entries : List (List Char × α)
deriving DecidableEq

def PrefixLookupDict.canonical {α : Type} (d : PrefixLookupDict α) (key : List Char) :
    List Char :=
  canonicalKey d.pfx key

/-- `d[key]` (`__getitem__`), as an `Option` instead of `KeyError`. -/
def PrefixLookupDict.getItem {α : Type} (d : PrefixLookupDict α) (key : List Char) :
    Option α :=
  assocFind (d.canonical key) d.entries

/-- `key in d` (`__contains__`). -/
def PrefixLookupDict.containsKey {α : Type} (d : PrefixLookupDict α) (key : List Char) :
    Bool :=
  (d.getItem key).isSome

/-- `d[key] = value` (`__setitem__`). -/
def PrefixLookupDict.setItem {α : Type} (d : PrefixLookupDict α) (key : List Char) (v : α) :
    PrefixLookupDict α :=
  { d with entries := assocSet (d.canonical key) v d.entries }

/-- `d.remove(key)`: `del d[key]` with the `KeyError` swallowed. -/
def PrefixLookupDict.delItem {α : Type} (d : PrefixLookupDict α) (key : List Char) :
    PrefixLookupDict α :=
  { d with entries := assocErase (d.canonical key) d.entries }

/-- `PrefixLookupDict(init)` for a list `init`: `self[item] = item` for each
item, starting from an empty dict with prefix `''`. -/
def PrefixLookupDict.ofNames (l : List (List Char)) : PrefixLookupDict (List Char) :=
  l.foldl (fun d k => d.setItem k k) ⟨[], []⟩

/-- `PrefixLookupDict(init)` for a dict `init`: `self[k] = v` for each entry,
starting from an empty dict with prefix `''`. -/
def PrefixLookupDict.copy (src : PrefixLookupDict (List Char)) : PrefixLookupDict (List Char) :=
  src.entries.foldl (fun d e => d.setItem e.1 e.2) ⟨[], []⟩

/-- `d.set_prefix(prefix)`. -/
def PrefixLookupDict.setPfx {α : Type} (d : PrefixLookupDict α) (p : List Char) :
    PrefixLookupDict α :=
  { d with pfx := setPrefix p }

/-! ## Plugin registry metadata (tpl.py lines 60–71) -/

/-- What `TplNode.register_plugin` reads off a plugin class: its `NAME` (or
`__name__`), its `PRIORITY` (or 0), its `__init__.__code__.co_varnames`, and
the class object itself (identified by a number). -/
structure PluginClass where
  name : List Char
  priority : Int
  ctorVarnames : List (List Char)
  classId : Nat
deriving DecidableEq

/-- The `meta` dict stored in `TplNode.PLUGINS`. -/
structure PluginMeta where
  cls : Nat
  args : PrefixLookupDict (List Char)
  name : List Char
  priority : Int
deriving DecidableEq

/-- `TplNode.register_plugin(plugin_class)` (tpl.py lines 60–71). -/
def registerPlugin (plugins : PrefixLookupDict PluginMeta) (pc : PluginClass) :
    PrefixLookupDict PluginMeta :=
  let args0 := PrefixLookupDict.ofNames pc.ctorVarnames
  let args1 := (args0.delItem "self".toList).delItem "tpl_element".toList
  plugins.setItem pc.name
    { cls := pc.classId, args := args1, name := pc.name, priority := pc.priority }

/-! ## Markup elements and the cached plugin-assignment record -/

structure Attr where
  name : List Char
  value : List Char
deriving DecidableEq

/-- One `(plug_meta, args, kwargs)` tuple of the `_plugins` list. -/
structure PluginEntry where
  meta : PluginMeta
  posArgs : List (List Char)
  kwargs : List (List Char × List Char)
deriving DecidableEq

/-- A markup element.  `pluginsCache` is the `_plugins` attribute attached by
`setattr` on the first compilation pass (`none` = `hasattr` is false);
`content` is the inner markup replaced by `set_html`.  Attribute names on a
real DOM element are unique. -/
structure Element where
  nodeName : List Char
  attributes : List Attr
  pluginsCache : Option (List PluginEntry)
  content : List Char
deriving DecidableEq

/-! ## Plugins and `TplNode` -/

/-- A plugin instance owned by a `TplNode`.  `TemplatePlugin` and `Include`
are the two classes defined in these sources; `TextPlugin`,
`InterpolatedAttrsPlugin` and `GenericTagPlugin` come from the external
plugin set and are represented by the element handed to their constructor;
an attribute-triggered or tag-triggered plugin constructed through the
registry is `constructed` (class, element, positional and keyword
arguments).  `oid` fields model Python object identity. -/
inductive Plugin where
  | text (el : Element)
  | interpolatedAttrs (el : Element)
  | genericTag (el : Element)
  | constructed (cls : Nat) (el : Element) (posArgs : List (List Char))
      (kwargs : List (List Char × List Char))
  | templateDef (oid : Nat) (name : List Char) (tplHash : Nat) (tplPlugin : Plugin)
  | includeTag (oid : Nat) (name : Option (List Char))
deriving DecidableEq

/-- `plugin.clone()`.  `TemplatePlugin.clone` (template.py lines 78–80) is
`return self` — the identical instance, `oid` included.  The clone capability
of the other plugin classes lives outside these sources; modelled from the
spec (section 4.2): cloning yields an identically-configured instance. -/
def Plugin.clone : Plugin → Plugin
  | .templateDef oid name tplHash tplPlugin => .templateDef oid name tplHash tplPlugin
  | p => p

/-- The compiled, bindable unit: the sequence number drawn from
`TplNode._HASH_SEQ` and the single plugin that became the node's behavior. -/
structure TplNode where
  hash : Nat
  plugin : Plugin
deriving DecidableEq

/-! ## Plugin discovery (tpl.py lines 102–123) -/

/-- Lines 107–111: walk the element's attributes; an attribute whose name
resolves in `PLUGINS` is captured as `(attr.value, PLUGINS[attr.name])` and
removed from the element (`element.attributes` yields a fresh snapshot list,
so removal affects the element, not the iteration). -/
def scanTriggers (reg : PrefixLookupDict PluginMeta) :
    List Attr → List (List Char × PluginMeta) × List Attr
  | [] => ([], [])
  | a :: rest =>
    let (ms, rem) := scanTriggers reg rest
    match reg.getItem a.name with
    | some m => ((a.value, m) :: ms, rem)
    | none => (ms, a :: rem)

/-- The comparison `lambda x: x[1]['priority']` induces on captured pairs. -/
def metaLE (a b : List Char × PluginMeta) : Prop := a.2.priority ≤ b.2.priority

instance : DecidableRel metaLE := fun a b => Int.decLe a.2.priority b.2.priority

instance : IsTotal (List Char × PluginMeta) metaLE :=
  ⟨fun a b => Int.le_total a.2.priority b.2.priority⟩

instance : IsTrans (List Char × PluginMeta) metaLE :=
  ⟨fun _ _ _ h1 h2 => Int.le_trans h1 h2⟩

/-- Line 114, `plugin_metas.sort(key=lambda x: x[1]['priority'])`: Python's
sort is stable and ascending, which determines it uniquely as a function;
insertion sort realises it. -/
def sortByPriority (l : List (List Char × PluginMeta)) : List (List Char × PluginMeta) :=
  List.insertionSort metaLE l

/-- `TplNode._build_kwargs` loop body (tpl.py lines 80–83) over the snapshot
of the element's attributes, accumulating the `kwargs` dict in insertion
order and removing each matched attribute from the element. -/
def buildKwargsGo (ld : PrefixLookupDict (List Char))
    (kwargs : List (List Char × List Char)) :
    List Attr → List (List Char × List Char) × List Attr
  | [] => (kwargs, [])
  | a :: rest =>
    match ld.getItem a.name with
    | some varname => buildKwargsGo ld (assocSet varname a.value kwargs) rest
    | none =>
      let (kw, rem) := buildKwargsGo ld kwargs rest
      (kw, a :: rem)

/-- `TplNode._build_kwargs(element, plugin)` (tpl.py lines 76–84):
`ld = PrefixLookupDict(plugin['args'])` then the matching loop. -/
def buildKwargs (pluginArgs : PrefixLookupDict (List Char)) (attrs : List Attr) :
    List (List Char × List Char) × List Attr :=
  buildKwargsGo (PrefixLookupDict.copy pluginArgs) [] attrs

/-- Lines 115–117: for every sorted `(arg, p)` pair, append
`(p, [arg], _build_kwargs(element, p))`, threading the element's shrinking
attribute set. -/
def buildEntries : List (List Char × PluginMeta) → List Attr → List PluginEntry × List Attr
  | [], attrs => ([], attrs)
  | (argv, m) :: ms, attrs =>
    let (kw, attrs1) := buildKwargs m.args attrs
    let (es, attrs2) := buildEntries ms attrs1
    (⟨m, [argv], kw⟩ :: es, attrs2)

/-- Verification instrumentation: the attributes `_build_kwargs` matches
(hence consumes) for one plugin, read off the same state it scans. -/
def kwargMatched (pluginArgs : PrefixLookupDict (List Char)) (attrs : List Attr) :
    List Attr :=
  attrs.filter (fun a => ((PrefixLookupDict.copy pluginArgs).getItem a.name).isSome)

/-- Verification instrumentation: the per-plugin lists of attributes consumed
as keyword arguments along the construction loop of lines 116–117. -/
def kwargDeliveries : List (List Char × PluginMeta) → List Attr → List (List Attr)
  | [], _ => []
  | (_, m) :: ms, attrs =>
    kwargMatched m.args attrs :: kwargDeliveries ms (buildKwargs m.args attrs).2

/-- Verification instrumentation: the attributes captured (and removed) as
plugin triggers by the scan of lines 108–111. -/
def triggerAttrs (reg : PrefixLookupDict PluginMeta) (attrs : List Attr) : List Attr :=
  attrs.filter (fun a => (reg.getItem a.name).isSome)

/-- The result of the discovery pass of lines 107–117: the plugin-assignment
`entries` (the `plugins` list), the attributes still on the element, and —
for the record — the sorted captured pairs and the attribute list right
after the trigger scan. -/
structure Discovery where
  entries : List PluginEntry
  remaining : List Attr
  sortedMetas : List (List Char × PluginMeta)
  scannedAttrs : List Attr
deriving DecidableEq

/-- Lines 107–117: scan triggers, stable-sort the captured pairs ascending by
priority, then build each plugin's entry, consuming keyword-argument
attributes along the way. -/
def discover (reg : PrefixLookupDict PluginMeta) (attrs : List Attr) : Discovery :=
  let (metas, attrs1) := scanTriggers reg attrs
  let sorted := sortByPriority metas
  let (entries, attrs2) := buildEntries sorted attrs1
  ⟨entries, attrs2, sorted, attrs1⟩

/-! ## `TplNode.__init__` (tpl.py lines 86–141) -/

/-- The two exceptions the constructor can raise.  Line 121 calls
`plugins.append(tplug, [], self._build_kwargs(...))` — `list.append` takes
exactly one argument, a `TypeError`.  Line 130 reads `p['class']` where `p`
is the loop variable of line 116; when the discovery block was skipped
(cached `_plugins`), `p` is unbound, a `NameError`. -/
inductive PyErr where
  | typeErrorAppend
  | nameErrorP
deriving DecidableEq

structure InitOut where
  node : TplNode
  elemOut : Option Element
  nextSeq : Nat
deriving DecidableEq

inductive TplSource where
  | fromNode (n : TplNode)
  | fromElement (el : Element)
deriving DecidableEq

/-- `TplNode.__init__(tpl_element)`.  The `isinstance(tpl_element, TplNode)`
branch clones the existing node's plugin and returns — no discovery, no
registry access.  The element branch: text nodes get `TextPlugin`; otherwise,
when `_plugins` is absent, run discovery (scan triggers, stable-sort by
priority, build kwargs per plugin; if the tag name also resolves, line 121
raises `TypeError`), cache the list; then pop the last entry and instantiate
`p['class']` — `p` being the stale loop variable (`plug_meta` is unused), so
with a cached list and no discovery loop this is a `NameError`; with no entry
left, fall back to `InterpolatedAttrsPlugin` when attributes remain, else
`GenericTagPlugin`. -/
def tplNodeInit (reg : PrefixLookupDict PluginMeta) (seq : Nat) :
    TplSource → Except PyErr InitOut
  | .fromNode n => .ok ⟨⟨seq, n.plugin.clone⟩, none, seq + 1⟩
  | .fromElement el =>
    if el.nodeName = "#text".toList then
      .ok ⟨⟨seq, .text el⟩, some el, seq + 1⟩
    else
      let disc : Except PyErr (List PluginEntry × List Attr × Option PluginMeta) :=
        match el.pluginsCache with
        | some ps => .ok (ps, el.attributes, none)
        | none =>
          let d := discover reg el.attributes
          if (reg.getItem el.nodeName).isSome then
            .error .typeErrorAppend
          else
            .ok (d.entries, d.remaining, (d.sortedMetas.map (fun x => x.2)).getLast?)
      match disc with
      | .error e => .error e
      | .ok (plugins, attrsLeft, pVar) =>
        match plugins.getLast? with
        | some entry =>
          match pVar with
          | none => .error .nameErrorP
          | some p =>
            let elOut : Element :=
              { el with attributes := attrsLeft, pluginsCache := some plugins.dropLast }
            .ok ⟨⟨seq, .constructed p.cls elOut entry.posArgs entry.kwargs⟩, some elOut, seq + 1⟩
        | none =>
          let elOut : Element :=
            { el with attributes := attrsLeft, pluginsCache := some [] }
          if attrsLeft ≠ [] then
            .ok ⟨⟨seq, .interpolatedAttrs elOut⟩, some elOut, seq + 1⟩
          else
            .ok ⟨⟨seq, .genericTag elOut⟩, some elOut, seq + 1⟩

/-- `TplNode.clone` (tpl.py lines 143–144): `return TplNode(self)`. -/
def TplNode.cloneOp (reg : PrefixLookupDict PluginMeta) (n : TplNode) (seq : Nat) :
    Except PyErr InitOut :=
  tplNodeInit reg seq (.fromNode n)

/-! ## `Template`'s update scheduler (tpl.py lines 206–228) -/

/-- The scheduler-relevant state of a bound `Template`: `self.update_timer`
(a timer id or `None`), the supply of fresh timer ids handed out by
`timer.set_interval`, and the observable count of `self.root.update()`
invocations. -/
structure TemplateSched where
  updateTimer : Option Nat
  nextTimerId : Nat
  updateCount : Nat
deriving DecidableEq

/-- `Template._start_timer(event)` (tpl.py lines 217–219): arm a 50 ms
interval timer if none is armed. -/
def startTimer (s : TemplateSched) : TemplateSched :=
  match s.updateTimer with
  | none => { s with updateTimer := some s.nextTimerId, nextTimerId := s.nextTimerId + 1 }
  | some _ => s

/-- `Template.update()` (tpl.py lines 221–228): run `self.root.update()`,
then clear the interval timer and reset `self.update_timer` to `None`. -/
def templateUpdate (s : TemplateSched) : TemplateSched :=
  { s with updateCount := s.updateCount + 1, updateTimer := none }

/-- The two events of the single-threaded cooperative loop: a `'change'`
notification reaching the root (`bind_ctx` subscribed `_start_timer` to it,
lines 211–215), and the armed timer firing `Template.update`. -/
inductive SchedEvent where
  | notify
  | tick
deriving DecidableEq

/-- One cooperative step: a change notification always runs `_start_timer`;
the timer can fire only while armed (`set_interval` was called and not yet
cleared). -/
def schedStep (s : TemplateSched) : SchedEvent → Option TemplateSched
  | .notify => some (startTimer s)
  | .tick =>
    match s.updateTimer with
    | some _ => some (templateUpdate s)
    | none => none

/-- A burst of `n` change notifications delivered back to back. -/
def notifyBurst : Nat → TemplateSched → TemplateSched
  | 0, s => s
  | n + 1, s => notifyBurst n (startTimer s)

/-! ## Named templates (`tags/template.py`) -/

inductive FetchErr where
  | fetchFailed
deriving DecidableEq

/-- Modelled from the spec: the `HTTPRequest` collaborator
(`circular.network.http` is not among the sources) performs the fetch and,
when `throw_on_error` is disabled, signals failure by an absent body instead
of raising (spec section 6, "Remote fetch collaborator", and section 4.5). -/
def httpRequest (outcome : Option (List Char)) (throwOnError : Bool) :
    Except FetchErr (Option (List Char)) :=
  match outcome with
  | some body => .ok (some body)
  | none => if throwOnError then .error .fetchFailed else .ok none

/-- `tpl_element.set_html(tpl_src)`: replace the element's inner markup; an
absent body leaves it empty. -/
def setHtml (el : Element) (s : Option (List Char)) : Element :=
  { el with content := match s with | some b => b | none => [] }

/-- `TemplatePlugin.__init__(tpl_element, name, src=None)` (template.py lines
60–67): with a `src`, fetch it with `throw_on_error=False` and substitute the
body via `set_html`; then `self._template = _compile(tpl_element)` and
`self._name = name`.  `_compile` is imported from `circular.template.tpl`
but absent from the sources; modelled from the spec (sections 2 and 4.5): it
compiles a markup element into a compiled node tree, kept abstract as the
parameter `compile`. -/
def templatePluginInit (oid : Nat) (el : Element) (name : List Char)
    (src : Option (List Char)) (fetchOutcome : Option (List Char))
    (compile : Element → TplNode) : Except FetchErr Plugin :=
  match src with
  | some _ =>
    match httpRequest fetchOutcome false with
    | .error e => .error e
    | .ok tplSrc =>
      let t := compile (setHtml el tplSrc)
      .ok (.templateDef oid name t.hash t.plugin)
  | none =>
    let t := compile el
    .ok (.templateDef oid name t.hash t.plugin)

/-- Modelled from the spec: the per-context template cache
`ctx.circular.TEMPLATE_CACHE` (the context class is not among the sources),
a name-keyed mapping holding bound `TemplatePlugin` instances (spec
section 3, "Named-template cache"). -/
abbrev TemplateCache := List (List Char × Plugin)

/-- `TemplatePlugin.bind(ctx)` (template.py lines 69–71):
`ctx.circular.TEMPLATE_CACHE[self._name] = self`. -/
def templatePluginBind (cache : TemplateCache) (p : Plugin) : TemplateCache :=
  match p with
  | .templateDef _ name _ _ => assocSet name p cache
  | _ => cache

/-- `TemplatePlugin.instantiate(ctx)` (template.py lines 73–76):
`return self._template.clone()`, i.e. a fresh `TplNode` over the clone of the
compiled template's plugin.  `none` when the receiver is not a template
definition (no `instantiate` method). -/
def templatePluginInstantiate (reg : PrefixLookupDict PluginMeta) (p : Plugin)
    (seq : Nat) : Option (TplNode × Nat) :=
  match p with
  | .templateDef _ _ tplHash tplPlugin =>
    match TplNode.cloneOp reg ⟨tplHash, tplPlugin⟩ seq with
    | .ok out => some (out.node, out.nextSeq)
    | .error _ => none
  | _ => none

inductive BindErr where
  | keyError (k : List Char)
  | noInstantiate
deriving DecidableEq

/-- `Include.bind_ctx(ctx)` (template.py lines 115–119):
`self._tpl_instance = ctx.circular.TEMPLATE_CACHE[self._name].instantiate(ctx)`
— a cache miss raises `KeyError` at once (no retry, no empty-render
fallback) — then the fresh instance is bound and returned. -/
def includeBindCtx (reg : PrefixLookupDict PluginMeta) (cache : TemplateCache)
    (name : List Char) (seq : Nat) : Except BindErr (TplNode × Nat) :=
  match assocFind name cache with
  | none => .error (.keyError name)
  | some tp =>
    match templatePluginInstantiate reg tp seq with
    | some (inst, seqOut) => .ok (inst, seqOut)
    | none => .error .noInstantiate

/-! ## Concrete sample data for closed evaluations -/

/-- Two attribute lists deliver no attribute in common (compared by name). -/
def attrNameDisjoint (d1 d2 : List Attr) : Prop :=
  ∀ a ∈ d1, ∀ b ∈ d2, a.name ≠ b.name

/-- A `for`-loop-like plugin class: priority 10, one constructor argument
`var` besides `self` and `tpl_element`. -/
def forClass : PluginClass :=
  { name := "For".toList, priority := 10,
    ctorVarnames := ["self".toList, "tpl_element".toList, "var".toList], classId := 1 }

/-- An `Include`-like plugin class (a dedicated element). -/
def includeClass : PluginClass :=
  { name := "Include".toList, priority := 0,
    ctorVarnames := ["self".toList, "tpl_element".toList, "name".toList], classId := 3 }

/-- `TplNode.PLUGINS` after `set_prefix('tpl-')` and registering the two
sample classes. -/
def demoRegistry : PrefixLookupDict PluginMeta :=
  registerPlugin (registerPlugin (PrefixLookupDict.setPfx ⟨[], []⟩ "tpl-".toList) includeClass)
    forClass

/-- Attributes of a sample element: a `tpl-for` trigger, a `var` keyword
argument for it, and an unrelated `class` attribute. -/
def demoAttrs : List Attr :=
  [⟨"tpl-for".toList, "x".toList⟩, ⟨"var".toList, "i".toList⟩,
   ⟨"class".toList, "row".toList⟩]

/-- An element whose `_plugins` record was cached by an earlier pass and
still holds one entry (as after a first pass that discovered two plugins and
popped one). -/
def cachedElement : Element :=
  { nodeName := "div".toList, attributes := [],
    pluginsCache := some [⟨{ cls := 1, args := ⟨[], []⟩, name := "For".toList, priority := 10 },
                           ["x".toList], []⟩],
    content := [] }

/-- An element whose tag name itself resolves to a registered plugin. -/
def tagElement : Element :=
  { nodeName := "tpl-include".toList, attributes := [], pluginsCache := none, content := [] }

/-! ## Facts about the ASCII case mapping -/

theorem char_toNat_ofNat_of_lt {m : Nat} (h : m < 55296) : (Char.ofNat m).toNat = m := by
  have hv : m.isValidChar := Or.inl h
  rw [Char.ofNat, dif_pos hv]
  simp [Char.ofNatAux, Char.toNat, UInt32.toNat]

theorem char_toNat_inj {c d : Char} (h : c.toNat = d.toNat) : c = d :=
  Char.eq_of_val_eq (UInt32.toNat.inj h)

theorem toUpper_toNat (c : Char) :
    (Char.toUpper c).toNat =
      if c.toNat ≥ 97 ∧ c.toNat ≤ 122 then c.toNat - 32 else c.toNat := by
  unfold Char.toUpper
  dsimp only
  split
  · next h => apply char_toNat_ofNat_of_lt; omega
  · rfl

theorem toUpper_of_not_lower {c : Char} (h : ¬ (c.toNat ≥ 97 ∧ c.toNat ≤ 122)) :
    Char.toUpper c = c := by
  unfold Char.toUpper
  exact if_neg h

theorem toUpper_idem (c : Char) : Char.toUpper (Char.toUpper c) = Char.toUpper c := by
  apply toUpper_of_not_lower
  rw [toUpper_toNat]
  split <;> omega

theorem toUpper_eq_iff_of_symbol {c s : Char}
    (hs : s.toNat < 65 ∨ (90 < s.toNat ∧ s.toNat < 97) ∨ 122 < s.toNat)
    (hup : Char.toUpper s = s) : Char.toUpper c = s ↔ c = s := by
  constructor
  · intro h
    apply char_toNat_inj
    have := congrArg Char.toNat h
    rw [toUpper_toNat] at this
    split at this <;> omega
  · intro h; rw [h, hup]

theorem toUpper_eq_dash_iff {c : Char} : Char.toUpper c = '-' ↔ c = '-' :=
  toUpper_eq_iff_of_symbol (by decide) (by decide)

theorem toUpper_eq_underscore_iff {c : Char} : Char.toUpper c = '_' ↔ c = '_' :=
  toUpper_eq_iff_of_symbol (by decide) (by decide)

/-! ## Canonicalisation lemmas -/

theorem mem_pyNorm_fixed {c : Char} {s : List Char} (h : c ∈ pyNorm s) :
    Char.toUpper c = c ∧ c ≠ '-' ∧ c ≠ '_' := by
  unfold pyNorm pyRemoveChar pyUpper at h
  have h1 := List.mem_of_mem_filter h
  have hne2 : c ≠ '_' := by
    have := List.of_mem_filter h
    simpa using this
  have hne1 : c ≠ '-' := by
    have := List.of_mem_filter h1
    simpa using this
  have h2 := List.mem_of_mem_filter h1
  obtain ⟨d, _, rfl⟩ := List.mem_map.mp h2
  exact ⟨toUpper_idem d, hne1, hne2⟩

theorem pyNorm_eq_self_of_forall {s : List Char}
    (h : ∀ c ∈ s, Char.toUpper c = c ∧ c ≠ '-' ∧ c ≠ '_') : pyNorm s = s := by
  unfold pyNorm pyRemoveChar pyUpper
  have hmap : s.map Char.toUpper = s := by
    conv_rhs => rw [← List.map_id s]
    exact List.map_congr_left (fun c hc => (h c hc).1)
  rw [hmap]
  rw [List.filter_eq_self.mpr
        (fun c hc => by simpa using (h c (List.mem_of_mem_filter hc)).2.2)]
  rw [List.filter_eq_self.mpr (fun c hc => by simpa using (h c hc).2.1)]

theorem pyNorm_idem (s : List Char) : pyNorm (pyNorm s) = pyNorm s :=
  pyNorm_eq_self_of_forall (fun _ hc => mem_pyNorm_fixed hc)

theorem pyNorm_drop_eq_self (s : List Char) (n : Nat) :
    pyNorm ((pyNorm s).drop n) = (pyNorm s).drop n :=
  pyNorm_eq_self_of_forall (fun _ hc => mem_pyNorm_fixed (List.mem_of_mem_drop hc))

theorem pyNorm_canonicalKey (pfx key : List Char) :
    pyNorm (canonicalKey pfx key) = canonicalKey pfx key := by
  unfold canonicalKey
  dsimp only
  split
  · exact pyNorm_drop_eq_self key pfx.length
  · exact pyNorm_idem key

theorem canonicalKey_of_normed {pfx r : List Char} (h : pyNorm r = r) :
    canonicalKey pfx r = if pfx.isPrefixOf r then r.drop pfx.length else r := by
  unfold canonicalKey
  rw [h]

theorem pyNorm_cons (c : Char) (s : List Char) :
    pyNorm (c :: s) =
      if c = '-' ∨ c = '_' then pyNorm s else Char.toUpper c :: pyNorm s := by
  unfold pyNorm pyRemoveChar pyUpper
  simp only [List.map_cons, List.filter_cons]
  by_cases h1 : c = '-'
  · subst h1
    simp
  · by_cases h2 : c = '_'
    · subst h2
      simp
    · have hu1 : ¬ Char.toUpper c = '-' := fun h => h1 (toUpper_eq_dash_iff.mp h)
      have hu2 : ¬ Char.toUpper c = '_' := fun h => h2 (toUpper_eq_underscore_iff.mp h)
      simp [hu1, hu2, h1, h2]

theorem pyNorm_of_spellingVariant {s t : List Char} (h : SpellingVariant s t) :
    pyNorm s = pyNorm t := by
  induction h with
  | nil => rfl
  | caseChar c d s t hcd hv ih =>
    rw [pyNorm_cons, pyNorm_cons]
    have hsep : (c = '-' ∨ c = '_') ↔ (d = '-' ∨ d = '_') := by
      constructor
      · rintro (rfl | rfl)
        · exact Or.inl (toUpper_eq_dash_iff.mp (by rw [← hcd]; decide))
        · exact Or.inr (toUpper_eq_underscore_iff.mp (by rw [← hcd]; decide))
      · rintro (rfl | rfl)
        · exact Or.inl (toUpper_eq_dash_iff.mp (by rw [hcd]; decide))
        · exact Or.inr (toUpper_eq_underscore_iff.mp (by rw [hcd]; decide))
    by_cases hc : c = '-' ∨ c = '_'
    · rw [if_pos hc, if_pos (hsep.mp hc), ih]
    · rw [if_neg hc, if_neg (fun hd => hc (hsep.mpr hd)), hcd, ih]
  | sepLeft c s t hsep hv ih => rw [pyNorm_cons, if_pos hsep, ih]
  | sepRight c s t hsep hv ih => rw [pyNorm_cons, if_pos hsep, ih]

/-! ## Claim C2 -/

/-- C2, counterexample: canonicalisation is not idempotent on every string.
With the prefix configured to `tpl-` (stored as `TPL`), the key
`tpl-tpl-for` canonicalises once to `TPLFOR` and a second time to `FOR`. -/
theorem canonicalKey_not_idempotent :
    canonicalKey (setPrefix "tpl-".toList)
        (canonicalKey (setPrefix "tpl-".toList) "tpl-tpl-for".toList)
      ≠ canonicalKey (setPrefix "tpl-".toList) "tpl-tpl-for".toList := by
  decide

/-- C2, amended: canonicalisation is total (it is a Lean function); it is
idempotent whenever the configured prefix is empty, and, for any prefix,
whenever the once-canonicalised key does not again begin with the prefix;
and any two spellings of the same logical name differing only in letter
case, hyphens or underscores canonicalise to the same key. -/
theorem canonicalKey_amended :
    (∀ key : List Char, canonicalKey [] (canonicalKey [] key) = canonicalKey [] key)
    ∧ (∀ pfx key : List Char, pfx.isPrefixOf (canonicalKey pfx key) = false →
        canonicalKey pfx (canonicalKey pfx key) = canonicalKey pfx key)
    ∧ (∀ pfx s t : List Char, SpellingVariant s t →
        canonicalKey pfx s = canonicalKey pfx t) := by
  refine ⟨?_, ?_, ?_⟩
  · intro key
    rw [canonicalKey_of_normed (pyNorm_canonicalKey [] key)]
    simp [List.isPrefixOf]
  · intro pfx key h
    rw [canonicalKey_of_normed (pyNorm_canonicalKey pfx key), h]
    simp
  · intro pfx s t h
    unfold canonicalKey
    rw [pyNorm_of_spellingVariant h]

/-- C2 witness: the amended statement at concrete inputs — idempotence with
the empty prefix on `tpl`, idempotence with prefix `TPL` on `for` (whose
canonical form does not start with the prefix), and agreement of the
spellings `data-x` and `DATA_X`. -/
theorem canonicalKey_amended_witness :
    canonicalKey [] (canonicalKey [] "tpl".toList) = canonicalKey [] "tpl".toList
    ∧ canonicalKey "TPL".toList (canonicalKey "TPL".toList "for".toList)
        = canonicalKey "TPL".toList "for".toList
    ∧ canonicalKey "TPL".toList "data-x".toList = canonicalKey "TPL".toList "DATA_X".toList := by
  refine ⟨canonicalKey_amended.1 _, canonicalKey_amended.2.1 _ _ (by decide),
    canonicalKey_amended.2.2 _ _ _ ?_⟩
  exact .caseChar 'd' 'D' _ _ (by decide)
    (.caseChar 'a' 'A' _ _ (by decide)
      (.caseChar 't' 'T' _ _ (by decide)
        (.caseChar 'a' 'A' _ _ (by decide)
          (.sepLeft '-' _ _ (Or.inl rfl)
            (.sepRight '_' _ _ (Or.inr rfl)
              (.caseChar 'x' 'X' _ _ (by decide) .nil))))))

/-! ## Scheduler lemmas and claim C4 -/

theorem startTimer_of_armed {s : TemplateSched} {i : Nat} (h : s.updateTimer = some i) :
    startTimer s = s := by
  unfold startTimer
  rw [h]

theorem notifyBurst_of_armed {s : TemplateSched} {i : Nat} (h : s.updateTimer = some i)
    (n : Nat) : notifyBurst n s = s := by
  induction n with
  | zero => rfl
  | succ m ih =>
    show notifyBurst m (startTimer s) = s
    rw [startTimer_of_armed h]
    exact ih

/-- C4: a finite burst of `n ≥ 1` change notifications arriving while the
update timer is disarmed arms the timer exactly once and performs no update;
the single enabled tick then invokes `update()` exactly once and disarms the
timer; afterwards no tick is enabled until a fresh notification re-arms the
timer. -/
theorem scheduler_coalesces_burst (s : TemplateSched) (n : Nat)
    (h0 : s.updateTimer = none) (hn : 1 ≤ n) :
    (notifyBurst n s).updateCount = s.updateCount
    ∧ (notifyBurst n s).updateTimer = some s.nextTimerId
    ∧ schedStep (notifyBurst n s) .tick
        = some ⟨none, s.nextTimerId + 1, s.updateCount + 1⟩
    ∧ ∀ sPost : TemplateSched, schedStep (notifyBurst n s) .tick = some sPost →
        schedStep sPost .tick = none
          ∧ (startTimer sPost).updateTimer = some sPost.nextTimerId := by
  obtain ⟨m, rfl⟩ : ∃ m, n = m + 1 := ⟨n - 1, by omega⟩
  have hs : startTimer s =
      { s with updateTimer := some s.nextTimerId, nextTimerId := s.nextTimerId + 1 } := by
    unfold startTimer
    rw [h0]
  have hb : notifyBurst (m + 1) s =
      { s with updateTimer := some s.nextTimerId, nextTimerId := s.nextTimerId + 1 } := by
    show notifyBurst m (startTimer s) = _
    rw [hs]
    exact notifyBurst_of_armed rfl m
  rw [hb]
  refine ⟨rfl, rfl, rfl, ?_⟩
  intro sPost h
  simp only [schedStep, templateUpdate, Option.some.injEq] at h
  subst h
  exact ⟨rfl, rfl⟩

/-- C4 witness: a burst of three notifications from the freshly bound state
performs no update, leaves one armed timer, and its tick performs exactly
one update and disarms. -/
theorem scheduler_coalesces_burst_witness :
    (notifyBurst 3 ⟨none, 0, 0⟩).updateCount = 0
    ∧ (notifyBurst 3 ⟨none, 0, 0⟩).updateTimer = some 0
    ∧ schedStep (notifyBurst 3 ⟨none, 0, 0⟩) .tick = some ⟨none, 1, 1⟩ := by
  have h := scheduler_coalesces_burst ⟨none, 0, 0⟩ 3 rfl (by decide)
  exact ⟨h.1, h.2.1, h.2.2.1⟩

/-! ## Claim C6 -/

/-- C6: constructing a `TplNode` from an existing `TplNode` never re-runs
discovery and never consults the plugin registry: the result is exactly a
fresh node holding the existing plugin's `clone()`, and any two registry
states produce identical results. -/
theorem tplNode_from_node_ignores_registry (reg1 reg2 : PrefixLookupDict PluginMeta)
    (n : TplNode) (seq : Nat) :
    tplNodeInit reg1 seq (.fromNode n) = .ok ⟨⟨seq, n.plugin.clone⟩, none, seq + 1⟩
    ∧ tplNodeInit reg1 seq (.fromNode n) = tplNodeInit reg2 seq (.fromNode n) :=
  ⟨rfl, rfl⟩

/-! ## Claim C10 -/

/-- C10: `TemplatePlugin.clone()` returns the very same instance (`oid` and
all fields preserved), so a `TplNode` cloned from a template-definition node
holds the identical definition plugin; `instantiate()` instead returns a
fresh `TplNode` (hash drawn from the monotonic counter) over a clone of the
compiled template body. -/
theorem templatePlugin_clone_returns_self (reg : PrefixLookupDict PluginMeta)
    (oid h0 tplHash seq : Nat) (name : List Char) (tplPlugin : Plugin) :
    Plugin.clone (.templateDef oid name tplHash tplPlugin)
        = .templateDef oid name tplHash tplPlugin
    ∧ tplNodeInit reg seq (.fromNode ⟨h0, .templateDef oid name tplHash tplPlugin⟩)
        = .ok ⟨⟨seq, .templateDef oid name tplHash tplPlugin⟩, none, seq + 1⟩
    ∧ templatePluginInstantiate reg (.templateDef oid name tplHash tplPlugin) seq
        = some (⟨seq, tplPlugin.clone⟩, seq + 1) :=
  ⟨rfl, rfl, rfl⟩

/-! ## Claim C9 -/

/-- C9: a `TemplatePlugin` constructed with a remote `src` whose fetch fails
does not raise — the request is made with `throw_on_error` disabled — and
compilation proceeds over the element with an empty body. -/
theorem templatePlugin_fetch_failure_absorbed (oid : Nat) (el : Element)
    (name src : List Char) (compile : Element → TplNode) :
    templatePluginInit oid el name (some src) none compile
        = .ok (.templateDef oid name (compile (setHtml el none)).hash
            (compile (setHtml el none)).plugin)
    ∧ setHtml el none = { el with content := [] } :=
  ⟨rfl, rfl⟩

/-! ## Claim C8 -/

/-- C8: when an include's referenced name is absent from the context's
template cache, `bind_ctx` fails immediately with the lookup error; no
instantiation and no fallback happens. -/
theorem include_unknown_name_keyError (reg : PrefixLookupDict PluginMeta)
    (cache : TemplateCache) (name : List Char) (seq : Nat)
    (h : assocFind name cache = none) :
    includeBindCtx reg cache name seq = .error (.keyError name) := by
  unfold includeBindCtx
  rw [h]

/-- C8 witness: including the undefined name `missing` against an empty
cache fails with the lookup error. -/
theorem include_unknown_name_keyError_witness :
    assocFind "missing".toList ([] : TemplateCache) = none
    ∧ includeBindCtx ⟨[], []⟩ [] "missing".toList 0
        = .error (.keyError "missing".toList) :=
  ⟨rfl, include_unknown_name_keyError ⟨[], []⟩ [] "missing".toList 0 rfl⟩

/-! ## Claim C1 -/

/-- C1, divergence: on a pass over an element whose `_plugins` record was
cached by an earlier pass and is non-empty, the constructor does not
instantiate the popped entry's plugin class — line 130 reads the loop
variable `p` of line 116, which is unbound when the discovery block was
skipped, so the construction raises `NameError` instead. -/
theorem cached_assignment_pop_nameError (reg : PrefixLookupDict PluginMeta) (seq : Nat)
    (el : Element) (ps : List PluginEntry)
    (hc : el.pluginsCache = some ps) (hne : ps ≠ [])
    (ht : el.nodeName ≠ "#text".toList) :
    tplNodeInit reg seq (.fromElement el) = .error .nameErrorP := by
  have hl : ps.getLast?.isSome := by
    rw [List.getLast?_isSome]
    exact hne
  obtain ⟨e, he⟩ := Option.isSome_iff_exists.mp hl
  unfold tplNodeInit
  dsimp only
  rw [if_neg ht]
  simp only [hc, he]

/-- C1 witness: a second construction pass over a `<div>` whose cached
assignment list holds one entry raises `NameError`. -/
theorem cached_assignment_pop_nameError_witness :
    cachedElement.pluginsCache
        = some [⟨{ cls := 1, args := ⟨[], []⟩, name := "For".toList, priority := 10 },
                 ["x".toList], []⟩]
    ∧ tplNodeInit demoRegistry 5 (.fromElement cachedElement) = .error .nameErrorP :=
  ⟨rfl, cached_assignment_pop_nameError demoRegistry 5 cachedElement _ rfl
    (by decide) (by decide)⟩

/-! ## Claim C3 -/

/-- C3, divergence: when an element's tag name resolves to a registered
plugin, the first compilation pass does not append a well-formed entry —
line 121 calls `plugins.append(tplug, [], ...)` with three arguments, which
raises `TypeError`, so the step never completes. -/
theorem tagname_plugin_append_typeError (reg : PrefixLookupDict PluginMeta) (seq : Nat)
    (el : Element)
    (hc : el.pluginsCache = none) (ht : el.nodeName ≠ "#text".toList)
    (hm : (reg.getItem el.nodeName).isSome = true) :
    tplNodeInit reg seq (.fromElement el) = .error .typeErrorAppend := by
  unfold tplNodeInit
  dsimp only
  rw [if_neg ht]
  simp only [hc, hm, if_true]

/-- C3 witness: compiling `<tpl-include/>` against a registry in which
`Include` is registered raises the `TypeError` of line 121. -/
theorem tagname_plugin_append_typeError_witness :
    (demoRegistry.getItem tagElement.nodeName).isSome = true
    ∧ tplNodeInit demoRegistry 0 (.fromElement tagElement) = .error .typeErrorAppend :=
  ⟨by decide, tagname_plugin_append_typeError demoRegistry 0 tagElement rfl
    (by decide) (by decide)⟩

/-! ## Discovery lemmas (towards claims C5 and C7) -/

theorem scanTriggers_cons (reg : PrefixLookupDict PluginMeta) (a : Attr) (rest : List Attr) :
    scanTriggers reg (a :: rest) =
      match reg.getItem a.name with
      | some m => ((a.value, m) :: (scanTriggers reg rest).1, (scanTriggers reg rest).2)
      | none => ((scanTriggers reg rest).1, a :: (scanTriggers reg rest).2) := by
  rcases hsc : scanTriggers reg rest with ⟨ms, rem⟩
  cases hit : reg.getItem a.name <;> simp [scanTriggers, hsc, hit]

theorem scanTriggers_snd (reg : PrefixLookupDict PluginMeta) (attrs : List Attr) :
    (scanTriggers reg attrs).2 = attrs.filter (fun a => (reg.getItem a.name).isNone) := by
  induction attrs with
  | nil => rfl
  | cons a rest ih =>
    rw [scanTriggers_cons]
    cases hit : reg.getItem a.name <;> simp [hit, List.filter_cons, ih]

theorem buildKwargsGo_snd (ld : PrefixLookupDict (List Char))
    (kw : List (List Char × List Char)) (attrs : List Attr) :
    (buildKwargsGo ld kw attrs).2 = attrs.filter (fun a => (ld.getItem a.name).isNone) := by
  induction attrs generalizing kw with
  | nil => rfl
  | cons a rest ih =>
    cases hit : ld.getItem a.name
    · rcases hgo : buildKwargsGo ld kw rest with ⟨kw2, rem⟩
      have hr := ih kw
      rw [hgo] at hr
      simp [buildKwargsGo, hit, hgo, List.filter_cons, hr]
    · simp [buildKwargsGo, hit, List.filter_cons, ih]

theorem buildKwargs_snd (argsD : PrefixLookupDict (List Char)) (attrs : List Attr) :
    (buildKwargs argsD attrs).2
      = attrs.filter (fun a => ((PrefixLookupDict.copy argsD).getItem a.name).isNone) :=
  buildKwargsGo_snd _ _ _

theorem buildEntries_cons (argv : List Char) (pm : PluginMeta)
    (ms : List (List Char × PluginMeta)) (attrs : List Attr) :
    buildEntries ((argv, pm) :: ms) attrs =
      ((⟨pm, [argv], (buildKwargs pm.args attrs).1⟩ : PluginEntry) ::
          (buildEntries ms (buildKwargs pm.args attrs).2).1,
        (buildEntries ms (buildKwargs pm.args attrs).2).2) := by
  rcases hkw : buildKwargs pm.args attrs with ⟨kw, a1⟩
  rcases hbe : buildEntries ms a1 with ⟨es, a2⟩
  simp [buildEntries, hkw, hbe]

theorem discover_def (reg : PrefixLookupDict PluginMeta) (attrs : List Attr) :
    discover reg attrs =
      ⟨(buildEntries (sortByPriority (scanTriggers reg attrs).1) (scanTriggers reg attrs).2).1,
       (buildEntries (sortByPriority (scanTriggers reg attrs).1) (scanTriggers reg attrs).2).2,
       sortByPriority (scanTriggers reg attrs).1,
       (scanTriggers reg attrs).2⟩ := by
  rcases hsc : scanTriggers reg attrs with ⟨ms, a1⟩
  rcases hbe : buildEntries (sortByPriority ms) a1 with ⟨es, a2⟩
  simp [discover, hsc, hbe]

theorem buildEntries_fst_map (ms : List (List Char × PluginMeta)) (attrs : List Attr) :
    (buildEntries ms attrs).1.map (fun e => (e.posArgs, e.meta))
      = ms.map (fun vm => ([vm.1], vm.2)) := by
  induction ms generalizing attrs with
  | nil => rfl
  | cons m ms ih =>
    obtain ⟨argv, pm⟩ := m
    rw [buildEntries_cons]
    simp only [List.map_cons, ih]

theorem buildEntries_snd_sublist (ms : List (List Char × PluginMeta)) (attrs : List Attr) :
    (buildEntries ms attrs).2.Sublist attrs := by
  induction ms generalizing attrs with
  | nil => exact List.Sublist.refl _
  | cons m ms ih =>
    obtain ⟨argv, pm⟩ := m
    rw [buildEntries_cons]
    refine (ih _).trans ?_
    rw [buildKwargs_snd]
    exact List.filter_sublist _

theorem buildEntries_pairwise (ms : List (List Char × PluginMeta)) (attrs : List Attr)
    (h : ms.Pairwise metaLE) :
    (buildEntries ms attrs).1.Pairwise
      (fun e1 e2 => e1.meta.priority ≤ e2.meta.priority) := by
  induction ms generalizing attrs with
  | nil => exact List.Pairwise.nil
  | cons m ms ih =>
    obtain ⟨argv, pm⟩ := m
    rw [buildEntries_cons]
    rcases List.pairwise_cons.mp h with ⟨hm, hms⟩
    refine List.Pairwise.cons ?_ (ih _ hms)
    intro e he
    have hmem : (e.posArgs, e.meta) ∈
        (buildEntries ms (buildKwargs pm.args attrs).2).1.map (fun e => (e.posArgs, e.meta)) :=
      List.mem_map_of_mem _ he
    rw [buildEntries_fst_map] at hmem
    obtain ⟨vm, hvm, heq⟩ := List.mem_map.mp hmem
    have h2 : vm.2 = e.meta := (Prod.ext_iff.mp heq).2
    have hle := hm vm hvm
    unfold metaLE at hle
    simpa [h2] using hle

theorem sortByPriority_sorted (l : List (List Char × PluginMeta)) :
    (sortByPriority l).Pairwise metaLE :=
  List.sorted_insertionSort metaLE l

theorem filter_orderedInsert_priority (pr : Int) (x : List Char × PluginMeta)
    (l : List (List Char × PluginMeta)) :
    (List.orderedInsert metaLE x l).filter (fun vm => decide (vm.2.priority = pr))
      = if x.2.priority = pr
        then x :: l.filter (fun vm => decide (vm.2.priority = pr))
        else l.filter (fun vm => decide (vm.2.priority = pr)) := by
  induction l with
  | nil => by_cases hx : x.2.priority = pr <;> simp [hx]
  | cons y ys ih =>
    by_cases hxy : metaLE x y
    · rw [List.orderedInsert_of_le metaLE ys hxy]
      by_cases hx : x.2.priority = pr <;> by_cases hy : y.2.priority = pr <;>
        simp [hx, hy, List.filter_cons]
    · rw [List.orderedInsert, if_neg hxy]
      have hlt : y.2.priority < x.2.priority := by
        unfold metaLE at hxy
        omega
      by_cases hx : x.2.priority = pr <;> by_cases hy : y.2.priority = pr
      · exfalso; omega
      · simp [hx, hy, List.filter_cons, ih]
      · simp [hx, hy, List.filter_cons, ih]
      · simp [hx, hy, List.filter_cons, ih]

theorem filter_sortByPriority (pr : Int) (l : List (List Char × PluginMeta)) :
    (sortByPriority l).filter (fun vm => decide (vm.2.priority = pr))
      = l.filter (fun vm => decide (vm.2.priority = pr)) := by
  induction l with
  | nil => rfl
  | cons x xs ih =>
    unfold sortByPriority at ih
    show (List.orderedInsert metaLE x (List.insertionSort metaLE xs)).filter _ = _
    rw [filter_orderedInsert_priority]
    by_cases hx : x.2.priority = pr <;> simp [hx, List.filter_cons, ih]

theorem map_proj_filter_entries (es : List PluginEntry) (pr : Int) :
    (es.filter (fun e => decide (e.meta.priority = pr))).map (fun e => (e.posArgs, e.meta))
      = (es.map (fun e => (e.posArgs, e.meta))).filter
          (fun vm => decide (vm.2.priority = pr)) := by
  induction es with
  | nil => rfl
  | cons e es ih => by_cases h : e.meta.priority = pr <;> simp [List.filter_cons, h, ih]

theorem map_projVM_filter (ms : List (List Char × PluginMeta)) (pr : Int) :
    (ms.map (fun vm => ([vm.1], vm.2))).filter (fun vm => decide (vm.2.priority = pr))
      = (ms.filter (fun vm => decide (vm.2.priority = pr))).map
          (fun vm => (([vm.1] : List (List Char)), vm.2)) := by
  induction ms with
  | nil => rfl
  | cons m ms ih => by_cases h : m.2.priority = pr <;> simp [List.filter_cons, h, ih]

/-! ## Claim C7 -/

/-- C7: the assignment list produced by discovery is sorted ascending by
descriptor priority, and entries with equal priority keep the order in which
their triggering attributes were captured (the sort is stable): for every
priority value, filtering the produced entries down to that priority yields
exactly the captured `(value, descriptor)` pairs of that priority, in
capture order. -/
theorem discovery_sorted_and_stable (reg : PrefixLookupDict PluginMeta)
    (attrs : List Attr) :
    (discover reg attrs).entries.Pairwise
        (fun e1 e2 => e1.meta.priority ≤ e2.meta.priority)
    ∧ ∀ pr : Int,
        ((discover reg attrs).entries.filter
            (fun e => decide (e.meta.priority = pr))).map (fun e => (e.posArgs, e.meta))
          = ((scanTriggers reg attrs).1.filter
              (fun vm => decide (vm.2.priority = pr))).map
                (fun vm => (([vm.1] : List (List Char)), vm.2)) := by
  rw [discover_def]
  constructor
  · exact buildEntries_pairwise _ _ (sortByPriority_sorted _)
  · intro pr
    show ((buildEntries (sortByPriority (scanTriggers reg attrs).1)
        (scanTriggers reg attrs).2).1.filter _).map _ = _
    rw [map_proj_filter_entries, buildEntries_fst_map, map_projVM_filter,
      filter_sortByPriority]

/-! ## Attribute-consumption lemmas (towards claim C5) -/

theorem mem_kwargMatched_isSome {argsD : PrefixLookupDict (List Char)} {attrs : List Attr}
    {a : Attr} (h : a ∈ kwargMatched argsD attrs) :
    ((PrefixLookupDict.copy argsD).getItem a.name).isSome := by
  simpa using List.of_mem_filter h

theorem mem_buildKwargs_snd_isNone {argsD : PrefixLookupDict (List Char)}
    {attrs : List Attr} {b : Attr} (h : b ∈ (buildKwargs argsD attrs).2) :
    ((PrefixLookupDict.copy argsD).getItem b.name).isNone := by
  rw [buildKwargs_snd] at h
  simpa using List.of_mem_filter h

theorem kwargDeliveries_sublist (ms : List (List Char × PluginMeta)) (attrs : List Attr) :
    ∀ d ∈ kwargDeliveries ms attrs, d.Sublist attrs := by
  induction ms generalizing attrs with
  | nil => intro d hd; simp [kwargDeliveries] at hd
  | cons m ms ih =>
    obtain ⟨argv, pm⟩ := m
    intro d hd
    simp only [kwargDeliveries] at hd
    rcases List.mem_cons.mp hd with rfl | htail
    · exact List.filter_sublist _
    · exact (ih _ d htail).trans (by rw [buildKwargs_snd]; exact List.filter_sublist _)

theorem kwargDeliveries_disjoint_final (ms : List (List Char × PluginMeta))
    (attrs : List Attr) :
    ∀ d ∈ kwargDeliveries ms attrs, ∀ a ∈ d,
      a.name ∉ ((buildEntries ms attrs).2.map Attr.name) := by
  induction ms generalizing attrs with
  | nil => intro d hd; simp [kwargDeliveries] at hd
  | cons m ms ih =>
    obtain ⟨argv, pm⟩ := m
    intro d hd a ha
    simp only [kwargDeliveries] at hd
    rw [buildEntries_cons]
    rcases List.mem_cons.mp hd with rfl | htail
    · intro hmem
      obtain ⟨b, hb, hbn⟩ := List.mem_map.mp hmem
      have hbIn : b ∈ (buildKwargs pm.args attrs).2 :=
        (buildEntries_snd_sublist ms _).subset hb
      have h1 := mem_kwargMatched_isSome ha
      have h2 := mem_buildKwargs_snd_isNone hbIn
      rw [hbn, Option.isNone_iff_eq_none] at h2
      rw [h2] at h1
      simp at h1
    · exact ih _ d htail a ha

theorem kwargDeliveries_pairwise (ms : List (List Char × PluginMeta)) (attrs : List Attr) :
    (kwargDeliveries ms attrs).Pairwise attrNameDisjoint := by
  induction ms generalizing attrs with
  | nil => exact List.Pairwise.nil
  | cons m ms ih =>
    obtain ⟨argv, pm⟩ := m
    simp only [kwargDeliveries]
    refine List.Pairwise.cons ?_ (ih _)
    intro d hd a ha b hb
    have hbIn : b ∈ (buildKwargs pm.args attrs).2 :=
      (kwargDeliveries_sublist ms _ d hd).subset hb
    have h1 := mem_kwargMatched_isSome ha
    have h2 := mem_buildKwargs_snd_isNone hbIn
    intro heq
    rw [← heq, Option.isNone_iff_eq_none] at h2
    rw [h2] at h1
    simp at h1

/-! ## Claim C5 -/

/-- C5: on a completing first pass, every attribute captured as a plugin
trigger is removed by the scan (absent from the post-scan attribute set and
from the final remaining set), every attribute matched as a keyword argument
is absent from the final remaining set, and no attribute is delivered to more
than one plugin: the trigger set and the per-plugin keyword deliveries are
pairwise disjoint by name, and (names being unique on a DOM element) the
captured triggers are pairwise distinct. -/
theorem discovery_consumes_each_attribute_once (reg : PrefixLookupDict PluginMeta)
    (attrs : List Attr) (hnd : (attrs.map Attr.name).Nodup) :
    (∀ a ∈ triggerAttrs reg attrs,
        a.name ∉ ((discover reg attrs).scannedAttrs.map Attr.name)
        ∧ a.name ∉ ((discover reg attrs).remaining.map Attr.name))
    ∧ (∀ d ∈ kwargDeliveries (discover reg attrs).sortedMetas
          (discover reg attrs).scannedAttrs,
        ∀ a ∈ d, a.name ∉ ((discover reg attrs).remaining.map Attr.name))
    ∧ (triggerAttrs reg attrs ::
        kwargDeliveries (discover reg attrs).sortedMetas
          (discover reg attrs).scannedAttrs).Pairwise attrNameDisjoint
    ∧ ((triggerAttrs reg attrs).map Attr.name).Nodup := by
  rw [discover_def]
  refine ⟨?_, ?_, ?_, ?_⟩
  · intro a ha
    have haS : (reg.getItem a.name).isSome := by simpa using List.of_mem_filter ha
    constructor
    · intro hmem
      obtain ⟨b, hb, hbn⟩ := List.mem_map.mp hmem
      rw [scanTriggers_snd] at hb
      have hbN : (reg.getItem b.name).isNone := by simpa using List.of_mem_filter hb
      rw [hbn, Option.isNone_iff_eq_none] at hbN
      rw [hbN] at haS
      simp at haS
    · intro hmem
      obtain ⟨b, hb, hbn⟩ := List.mem_map.mp hmem
      have hbS : b ∈ (scanTriggers reg attrs).2 :=
        (buildEntries_snd_sublist _ _).subset hb
      rw [scanTriggers_snd] at hbS
      have hbN : (reg.getItem b.name).isNone := by simpa using List.of_mem_filter hbS
      rw [hbn, Option.isNone_iff_eq_none] at hbN
      rw [hbN] at haS
      simp at haS
  · exact kwargDeliveries_disjoint_final _ _
  · refine List.Pairwise.cons ?_ (kwargDeliveries_pairwise _ _)
    intro d hd a ha b hb
    have haS : (reg.getItem a.name).isSome := by simpa using List.of_mem_filter ha
    have hbIn : b ∈ (scanTriggers reg attrs).2 :=
      (kwargDeliveries_sublist _ _ d hd).subset hb
    rw [scanTriggers_snd] at hbIn
    have hbN : (reg.getItem b.name).isNone := by simpa using List.of_mem_filter hbIn
    intro heq
    rw [← heq, Option.isNone_iff_eq_none] at hbN
    rw [hbN] at haS
    simp at haS
  · exact List.Nodup.sublist ((List.filter_sublist attrs).map Attr.name) hnd

/-- C5 witness: the concrete element carrying a `tpl-for` trigger, a matching
`var` keyword argument and an unrelated `class` attribute, compiled against
the sample registry. -/
theorem discovery_consumes_each_attribute_once_witness :
    ((demoAttrs.map Attr.name).Nodup)
    ∧ ((∀ a ∈ triggerAttrs demoRegistry demoAttrs,
        a.name ∉ ((discover demoRegistry demoAttrs).scannedAttrs.map Attr.name)
        ∧ a.name ∉ ((discover demoRegistry demoAttrs).remaining.map Attr.name))
    ∧ (∀ d ∈ kwargDeliveries (discover demoRegistry demoAttrs).sortedMetas
          (discover demoRegistry demoAttrs).scannedAttrs,
        ∀ a ∈ d, a.name ∉ ((discover demoRegistry demoAttrs).remaining.map Attr.name))
    ∧ (triggerAttrs demoRegistry demoAttrs ::
        kwargDeliveries (discover demoRegistry demoAttrs).sortedMetas
          (discover demoRegistry demoAttrs).scannedAttrs).Pairwise attrNameDisjoint
    ∧ ((triggerAttrs demoRegistry demoAttrs).map Attr.name).Nodup) :=
  ⟨by decide, discovery_consumes_each_attribute_once demoRegistry demoAttrs (by decide)⟩

end Circular
